import Mathlib

/-!
# ganda `requests` package: request worker, retry executor and request builder

A shallow embedding of `src/requests/requests.go` and a verification of the
retry, delivery and header properties of its three functions
`requestWorker`, `requestWithRetry` and `createRequest`.

Modelling choices.

* Go `int` values (`MaxRetries`, `previouslyFailed`) are `Int`.  The only
  arithmetic on them is `previouslyFailed + 1` under the guard
  `previouslyFailed < MaxRetries`, which cannot overflow.
* `time.Duration` is an `int64` count of nanoseconds; the product
  `time.Duration(failed) * time.Second` wraps around like Go's `int64`
  multiplication (`wrapInt64`).
* The network is an oracle: the result of the `n`-th call of `Client.Do`
  (counted per client, from 0) is `Client n request`.
* Every effect (channel receive, `Do`, logger call, sleep, channel send) is
  recorded in order in the `trace` of the `World`.
* A Go pointer that may be nil is an `Option`; dereferencing nil and
  `panic(err)` make the function return `Except.error`.
* `requestWorker` is the run of one worker on the URLs it receives from the
  source, in the order it receives them, with a sink that never blocks.
  `StartRequestWorkers`, which only spawns the workers, is not modelled.
-/

namespace Ganda

/-! ## Data model -/

/-- Go `error` values are kept abstract as their text. -/
abbrev Error := String

/-- The part of `http.Response` the package looks at. -/
structure Response where
  StatusCode : Int
  Body : String
  deriving DecidableEq, Repr

/-- Go `http.Header`, a `map[string][]string`, as an association list. -/
structure Header where
  entries : List (String × List String)
  deriving DecidableEq, Repr

/-- The part of `http.Request` the package touches; `URL` is the text that
`request.URL.String()` returns. -/
structure Request where
  Method : String
  URL : String
  Header : Header
  deriving DecidableEq, Repr

/-- The pair `(response, err)` returned by `http.Client.Do`. -/
structure DoResult where
  response : Option Response
  err : Option Error
  deriving DecidableEq, Repr

/-- Go `config.RequestHeader`. -/
structure RequestHeader where
  Key : String
  Value : String
  deriving DecidableEq, Repr

/-- The fields of `execcontext.Context` that the package reads. -/
structure Context where
  RequestMethod : String
  RequestHeaders : List RequestHeader
  Retries : Int
  RequestWorkers : Int
  Insecure : Bool
  ConnectTimeoutDuration : Int

/-- Go `HttpClient`; `Client n request` is what the `n`-th call of
`Client.Do` returns. -/
structure HttpClient where
  MaxRetries : Int
  Client : Nat → Request → DoResult

/-- The function from which a logger call is made. -/
inductive Caller where
  | requestWithRetry
  | requestWorker
  deriving DecidableEq, Repr

/-- One observable effect of the package. -/
inductive Event where
  /-- `for url := range requests` received `url` (line 53). -/
  | Recv (url : String)
  /-- `httpClient.Client.Do(request)` (line 67). -/
  | Do (request : Request)
  /-- `Logger.LogResponse(statusCode, message)` (line 75). -/
  | LogResponse (statusCode : Int) (message : String)
  /-- `Logger.LogError(err, message)` (lines 61 and 77). -/
  | LogError (caller : Caller) (err : Error) (message : String)
  /-- `time.Sleep(d)`, `d` in nanoseconds (line 80). -/
  | Sleep (d : Int)
  /-- `responses <- finalResponse` (line 59). -/
  | Send (response : Option Response)
  deriving DecidableEq, Repr

/-- A run-time panic. -/
inductive Panic where
  /-- `panic(err)` of `createRequest` (line 92). -/
  | buildError (err : Error)
  /-- Reading a field through a nil pointer. -/
  | nilDereference
  deriving DecidableEq, Repr

/-- The state threaded through a run: how many times `Do` was called, the
effects so far, and the calls of `Do` whose response had its `StatusCode`
field read. -/
structure World where
  calls : Nat
  trace : List Event
  statusReads : List Nat
  deriving DecidableEq, Repr

/-- Append one effect to the trace. -/
def World.emit (w : World) (e : Event) : World :=
  { w with trace := w.trace ++ [e] }

/-- The state after one more call of `Do`. -/
def World.recordDo (w : World) (request : Request) : World :=
  { w with calls := w.calls + 1, trace := w.trace ++ [Event.Do request] }

/-! ## Go library functions used by the package -/

/-- Go `int64` wrap-around of an integer result. -/
def wrapInt64 (x : Int) : Int := (x + 9223372036854775808) % 18446744073709551616 - 9223372036854775808

/-- Go `time.Second`, in nanoseconds. -/
def Second : Int := 1000000000

/-- Go `time.Duration(failed) * time.Second`. -/
def sleepDuration (failed : Int) : Int := wrapInt64 (wrapInt64 failed * Second)

/-- Go `textproto.validHeaderFieldByte` and `httpguts.IsTokenRune`: the
token characters of RFC 7230. -/
def validHeaderFieldByte (c : Char) : Bool :=
  c.isAlphanum || "!#$%&'*+-.^_`|~".toList.contains c

/-- The case-fixing loop of Go `textproto.canonicalMIMEHeaderKey`: upper case
at the start and after a dash, lower case elsewhere. -/
def canonicalizeBytes : Bool → List Char → List Char
  | _, [] => []
  | upper, c :: cs =>
    let c1 := if upper && c.isLower then c.toUpper
              else if !upper && c.isUpper then c.toLower else c
    c1 :: canonicalizeBytes (c1 == '-') cs

/-- Go `textproto.CanonicalMIMEHeaderKey`: a key holding a byte that is not a
header field byte is returned unchanged. -/
def CanonicalMIMEHeaderKey (s : String) : String :=
  if s.toList.all validHeaderFieldByte then String.mk (canonicalizeBytes true s.toList) else s

/-- Go map read `h[key]`: the nil slice when the key is absent. -/
def Header.index (h : Header) (key : String) : List String :=
  match h.entries.find? (fun e => e.1 == key) with
  | some e => e.2
  | none => []

/-- Go map write `h[key] = values` on the entry list. -/
def assignEntry : List (String × List String) → String → List String → List (String × List String)
  | [], key, values => [(key, values)]
  | (k, v) :: rest, key, values =>
    if k == key then (k, values) :: rest else (k, v) :: assignEntry rest key values

/-- Go `Header.Add`: canonicalise the key and append to its values. -/
def Header.Add (h : Header) (key value : String) : Header :=
  let key := CanonicalMIMEHeaderKey key
  ⟨assignEntry h.entries key (h.index key ++ [value])⟩

/-- Go `Header.Values`: all values of the canonicalised key. -/
def Header.Values (h : Header) (key : String) : List String :=
  h.index (CanonicalMIMEHeaderKey key)

/-- Go `Header.Get`: the first value of the canonicalised key, or `""`. -/
def Header.Get (h : Header) (key : String) : String :=
  match h.index (CanonicalMIMEHeaderKey key) with
  | [] => ""
  | v :: _ => v

/-- Go `http.validMethod`: a non-empty token. -/
def validMethod (method : String) : Bool :=
  !method.isEmpty && method.toList.all validHeaderFieldByte

/-- Go `http.NewRequest(method, url, nil)`; `parse` stands for `url.Parse`
followed by `String()`.  The new request has an empty header map. -/
def NewRequest (parse : String → Except Error String) (method url : String) :
    Except Error Request :=
  let method := if method = "" then "GET" else method
  if validMethod method then
    match parse url with
    | .error err => .error err
    | .ok u => .ok { Method := method, URL := u, Header := ⟨[]⟩ }
  else .error ("net/http: invalid method " ++ method)

/-- A stand-in for Go `url.Parse` followed by `String()`, used only in the
sample runs below; the general theorems take the parser as a parameter.  It
keeps the first check of `url.Parse`, which rejects a raw URL holding an
ASCII control byte, with the inner message of the error Go returns; every
other URL is taken to parse and to print as itself, which is what Go does for
the URLs of the sample runs and not for every URL. -/
def urlParse (rawURL : String) : Except Error String :=
  if rawURL.toList.any (fun c => c.toNat < 32 || c.toNat == 127) then
    .error "net/url: invalid control character in URL"
  else .ok rawURL

/-! ## The package -/

/-- Go `NewHttpClient`: `transport` is the behaviour of the `http.Client`
it builds. -/
def NewHttpClient (context : Context) (transport : Nat → Request → DoResult) : HttpClient :=
  { MaxRetries := context.Retries, Client := transport }

/-- Go `response.StatusCode`: the read is recorded against the latest call of
`Do`; through a nil pointer it panics. -/
def statusCode (response : Option Response) (w : World) : Except Panic Int × World :=
  let w1 := { w with statusReads := w.statusReads ++ [w.calls - 1] }
  match response with
  | none => (.error Panic.nilDereference, w1)
  | some r => (.ok r.StatusCode, w1)

/-- Go `err != nil || response.StatusCode >= 500` (line 69), evaluated left
to right with short circuit. -/
def failedAttempt (r : DoResult) (w : World) : Except Panic Bool × World :=
  match r.err with
  | some _ => (.ok true, w)
  | none =>
    match statusCode r.response w with
    | (.error p, w1) => (.error p, w1)
    | (.ok s, w1) => (.ok (decide (s ≥ 500)), w1)

/-- Go `fmt.Sprintf("%s (%d)", request.URL.String(), failed)` (line 72). -/
def retryMessage (request : Request) (failed : Int) : String :=
  request.URL ++ " (" ++ toString failed ++ ")"

/-- The logger call of lines 74 to 78. -/
def logFailure (r : DoResult) (message : String) (w : World) : Except Panic Unit × World :=
  match r.err with
  | none =>
    match statusCode r.response w with
    | (.error p, w1) => (.error p, w1)
    | (.ok s, w1) => (.ok (), w1.emit (Event.LogResponse s message))
  | some err => (.ok (), w.emit (Event.LogError Caller.requestWithRetry err message))

/-- Go `requestWithRetry` (lines 66 to 86). -/
def requestWithRetry (httpClient : HttpClient) (request : Request) (previouslyFailed : Int)
    (w : World) : Except Panic DoResult × World :=
  let r := httpClient.Client w.calls request
  let w1 := w.recordDo request
  if _h : previouslyFailed < httpClient.MaxRetries then
    match failedAttempt r w1 with
    | (.error p, w2) => (.error p, w2)
    | (.ok false, w2) => (.ok r, w2)
    | (.ok true, w2) =>
      let failed := previouslyFailed + 1
      let message := retryMessage request failed
      match logFailure r message w2 with
      | (.error p, w3) => (.error p, w3)
      | (.ok (), w3) =>
        let w4 := w3.emit (Event.Sleep (sleepDuration failed))
        requestWithRetry httpClient request failed w4
  else (.ok r, w1)
termination_by (httpClient.MaxRetries - previouslyFailed).toNat
decreasing_by omega

/-- Go `createRequest` (lines 88 to 101). -/
def createRequest (parse : String → Except Error String) (url requestMethod : String)
    (requestHeaders : List RequestHeader) : Except Panic Request :=
  match NewRequest parse requestMethod url with
  | .error err => .error (Panic.buildError err)
  | .ok request =>
    let request := requestHeaders.foldl
      (fun (req : Request) header => { req with Header := req.Header.Add header.Key header.Value })
      request
    .ok { request with Header := request.Header.Add "connection" "keep-alive" }

/-- The body of the loop of `requestWorker` (lines 54 to 62) for one `url`. -/
def handleURL (context : Context) (parse : String → Except Error String) (httpClient : HttpClient)
    (url : String) (w : World) : Except Panic Unit × World :=
  match createRequest parse url context.RequestMethod context.RequestHeaders with
  | .error p => (.error p, w)
  | .ok request =>
    match requestWithRetry httpClient request 0 w with
    | (.error p, w1) => (.error p, w1)
    | (.ok r, w1) =>
      match r.err with
      | none => (.ok (), w1.emit (Event.Send r.response))
      | some err => (.ok (), w1.emit (Event.LogError Caller.requestWorker err url))

/-- The loop `for url := range requests` over the URLs the worker receives. -/
def workerLoop (context : Context) (parse : String → Except Error String) (httpClient : HttpClient) :
    List String → World → Except Panic Unit × World
  | [], w => (.ok (), w)
  | url :: rest, w =>
    match handleURL context parse httpClient url (w.emit (Event.Recv url)) with
    | (.error p, w1) => (.error p, w1)
    | (.ok (), w1) => workerLoop context parse httpClient rest w1

/-- Go `requestWorker` (lines 51 to 64) draining a source that delivers
`requests` to this worker and is then closed. -/
def requestWorker (context : Context) (transport : Nat → Request → DoResult)
    (parse : String → Except Error String) (requests : List String) (w : World) :
    Except Panic Unit × World :=
  let httpClient := NewHttpClient context transport
  workerLoop context parse httpClient requests w

/-! ## Reading a run -/

/-- The attempt failed: a transport error, or a response with status 500 or more. -/
def DoResult.failed (r : DoResult) : Bool :=
  match r.err, r.response with
  | some _, _ => true
  | none, some resp => decide (resp.StatusCode ≥ 500)
  | none, none => false

/-- The client keeps the contract of `http.Client.Do`: a nil error comes with
a non-nil response. -/
def ClientContract (client : Nat → Request → DoResult) : Prop :=
  ∀ n request, (client n request).err = none → (client n request).response ≠ none

/-- The warning `requestWithRetry` logs for a failed attempt. -/
def warningEvents (request : Request) (failed : Int) (r : DoResult) : List Event :=
  match r.err, r.response with
  | some err, _ => [Event.LogError Caller.requestWithRetry err (retryMessage request failed)]
  | none, some resp => [Event.LogResponse resp.StatusCode (retryMessage request failed)]
  | none, none => []

/-- The status reads of a failed attempt that is retried: two when there
is no transport error (lines 69 and 75), none otherwise. -/
def failureReads (call : Nat) (r : DoResult) : List Nat :=
  match r.err with
  | some _ => []
  | none => [call, call]

/-- The state after an attempt that failed and is retried. -/
def World.afterFailure (w : World) (request : Request) (previouslyFailed : Int) (r : DoResult) :
    World :=
  { calls := w.calls + 1
    trace := w.trace ++ ([Event.Do request] ++ warningEvents request (previouslyFailed + 1) r
      ++ [Event.Sleep (sleepDuration (previouslyFailed + 1))])
    statusReads := w.statusReads ++ failureReads w.calls r }

/-- The state after `k` attempts in a row that failed and were retried. -/
def World.afterFailures (c : HttpClient) (request : Request) : Nat → Int → World → World
  | 0, _, w => w
  | k + 1, previouslyFailed, w =>
    World.afterFailures c request k (previouslyFailed + 1)
      (w.afterFailure request previouslyFailed (c.Client w.calls request))

/-- The effects of `k` failed and retried attempts, the first being call
number `call` of `Do` made with `previouslyFailed` earlier failures: for each
one the call of `Do`, then its warning, then its sleep. -/
def retryEvents (c : HttpClient) (request : Request) : Nat → Nat → Int → List Event
  | 0, _, _ => []
  | k + 1, call, previouslyFailed =>
    ([Event.Do request] ++ warningEvents request (previouslyFailed + 1) (c.Client call request)
      ++ [Event.Sleep (sleepDuration (previouslyFailed + 1))])
      ++ retryEvents c request k (call + 1) (previouslyFailed + 1)

/-- Number of calls of `Do` in a trace. -/
def attempts (tr : List Event) : Nat :=
  tr.countP (fun e => match e with | Event.Do _ => true | _ => false)

/-- Number of warning events in a trace: the logger calls of `requestWithRetry`. -/
def warnings (tr : List Event) : Nat :=
  tr.countP (fun e => match e with
    | Event.LogResponse _ _ => true
    | Event.LogError Caller.requestWithRetry _ _ => true
    | _ => false)

/-- Number of terminal errors in a trace: the `LogError` calls of `requestWorker`. -/
def terminalErrors (tr : List Event) : Nat :=
  tr.countP (fun e => match e with
    | Event.LogError Caller.requestWorker _ _ => true
    | _ => false)

/-- The sleeps of a trace, in order, in nanoseconds. -/
def sleeps (tr : List Event) : List Int :=
  tr.filterMap (fun e => match e with | Event.Sleep d => some d | _ => none)

/-- The responses sent to the sink in a trace, in order. -/
def sent (tr : List Event) : List (Option Response) :=
  tr.filterMap (fun e => match e with | Event.Send r => some r | _ => none)

/-- The URLs received from the source in a trace, in order. -/
def received (tr : List Event) : List String :=
  tr.filterMap (fun e => match e with | Event.Recv url => some url | _ => none)

/-- The effect that ends the handling of `url` in `requestWorker` (lines 58 to
62) when `requestWithRetry` returned `r`: the response sent to the sink when
the error is nil, the terminal error reported for `url` otherwise. -/
def finalEvent (url : String) (r : DoResult) : Event :=
  match r.err with
  | none => Event.Send r.response
  | some err => Event.LogError Caller.requestWorker err url

/-- The trace handles the URLs one after the other, each exactly once, the
first of them starting at call number `call` of `Do`.  For each URL: it is
received; the request `createRequest` builds for it is attempted `k + 1`
times, where the first `k` attempts fail and are retried with their warning
and sleep, and attempt `k + 1` is the first that does not fail or the one that
uses up the budget; and the result of that last attempt decides the one final
effect, as `finalEvent` says. -/
def Handles (ctx : Context) (parse : String → Except Error String) (c : HttpClient) :
    List String → Nat → List Event → Prop
  | [], _, tr => tr = []
  | url :: rest, call, tr =>
    ∃ (req : Request) (k : Nat) (tr1 : List Event),
      createRequest parse url ctx.RequestMethod ctx.RequestHeaders = .ok req
        ∧ k ≤ c.MaxRetries.toNat
        ∧ (∀ i : Nat, i < k → (c.Client (call + i) req).failed = true)
        ∧ (k = c.MaxRetries.toNat ∨ (c.Client (call + k) req).failed = false)
        ∧ tr = Event.Recv url :: (retryEvents c req k call 0 ++ [Event.Do req]
            ++ finalEvent url (c.Client (call + k) req) :: tr1)
        ∧ Handles ctx parse c rest (call + k + 1) tr1

/-- The effects that a run ending in `w1` added to the trace of `w`. -/
def World.eventsSince (w1 w : World) : List Event :=
  w1.trace.drop w.trace.length

/-- The values configured for the header `name`, in the order they were given;
names are compared the way `http.Header` does, after canonicalisation. -/
def configuredValues (headers : List RequestHeader) (name : String) : List String :=
  (headers.filter
    (fun h => CanonicalMIMEHeaderKey h.Key == CanonicalMIMEHeaderKey name)).map (fun h => h.Value)

/-! ## Sample runs -/

/-- The state before any call of `Do` and any effect. -/
def emptyWorld : World := ⟨0, [], []⟩

/-- The request `createRequest` builds for `http://a/`, method `GET` and the
configured header `X-A: 1`. -/
def exampleRequest : Request :=
  { Method := "GET", URL := "http://a/", Header := ⟨[("X-A", ["1"]), ("Connection", ["keep-alive"])]⟩ }

/-- A configuration with method `GET`, the header `X-A: 1` and the given
number of retries. -/
def exampleContext (retries : Int) : Context :=
  { RequestMethod := "GET", RequestHeaders := [⟨"X-A", "1"⟩], Retries := retries,
    RequestWorkers := 1, Insecure := false, ConnectTimeoutDuration := 10000000000 }

/-- A client that answers every call with a 404 response. -/
def transportNotFound : Nat → Request → DoResult := fun _ _ => ⟨some ⟨404, "not found"⟩, none⟩

/-- A client whose every call fails with a transport error. -/
def transportTimeout : Nat → Request → DoResult := fun _ _ => ⟨none, some "timeout"⟩

/-- A client that answers its first two calls with 503 and then with 200. -/
def transportBusyTwice : Nat → Request → DoResult :=
  fun n _ => if n < 2 then ⟨some ⟨503, "busy"⟩, none⟩ else ⟨some ⟨200, "ok"⟩, none⟩

/-- A client that answers every call with a 500 response. -/
def transportServerError : Nat → Request → DoResult := fun _ _ => ⟨some ⟨500, "oops"⟩, none⟩

/-- A client whose first call is refused with an error and a non-nil
response, whose second call is answered with 503, and whose later calls time
out. -/
def transportFlaky : Nat → Request → DoResult :=
  fun n _ =>
    if n = 0 then ⟨some ⟨302, "moved"⟩, some "redirect refused"⟩
    else if n = 1 then ⟨some ⟨503, "busy"⟩, none⟩
    else ⟨none, some "timeout"⟩

/-! ## Properties of `requestWithRetry` and `requestWorker` -/

theorem requestWithRetry_terminal (c : HttpClient) (req : Request) (pf : Int) (w : World)
    (h : ¬ pf < c.MaxRetries) :
    requestWithRetry c req pf w = (.ok (c.Client w.calls req), w.recordDo req) := by
  rw [requestWithRetry]
  simp [h]

theorem requestWithRetry_retry (c : HttpClient) (req : Request) (pf : Int) (w : World)
    (h : pf < c.MaxRetries) (hf : (c.Client w.calls req).failed = true) :
    requestWithRetry c req pf w
      = requestWithRetry c req (pf + 1) (w.afterFailure req pf (c.Client w.calls req)) := by
  rw [requestWithRetry]
  simp only [h, dite_true]
  generalize c.Client w.calls req = r at hf ⊢
  obtain ⟨resp, err⟩ := r
  cases err with
  | some e =>
    simp [failedAttempt, logFailure, World.afterFailure, World.emit, World.recordDo,
      warningEvents, failureReads]
  | none =>
    cases resp with
    | none => simp [DoResult.failed] at hf
    | some resp =>
      simp [DoResult.failed] at hf
      simp [failedAttempt, logFailure, World.afterFailure, World.emit, World.recordDo,
        warningEvents, failureReads, statusCode, hf]

theorem requestWithRetry_success (c : HttpClient) (req : Request) (pf : Int) (w : World)
    (resp : Response) (hr : c.Client w.calls req = ⟨some resp, none⟩)
    (hs : resp.StatusCode < 500) :
    requestWithRetry c req pf w
      = (.ok ⟨some resp, none⟩,
         { calls := w.calls + 1
           trace := w.trace ++ [Event.Do req]
           statusReads := w.statusReads ++ (if pf < c.MaxRetries then [w.calls] else []) }) := by
  rw [requestWithRetry]
  have hs2 : ¬ (500 ≤ resp.StatusCode) := by omega
  by_cases h : pf < c.MaxRetries
  · simp [h, hr, failedAttempt, statusCode, World.recordDo, hs2]
  · simp [h, hr, World.recordDo]

theorem requestWithRetry_nil (c : HttpClient) (req : Request) (pf : Int) (w : World)
    (h : pf < c.MaxRetries) (hr : c.Client w.calls req = ⟨none, none⟩) :
    requestWithRetry c req pf w
      = (.error Panic.nilDereference,
         { calls := w.calls + 1
           trace := w.trace ++ [Event.Do req]
           statusReads := w.statusReads ++ [w.calls] }) := by
  rw [requestWithRetry]
  simp [h, hr, failedAttempt, statusCode, World.recordDo]

theorem afterFailures_calls (c : HttpClient) (req : Request) (k : Nat) (pf : Int) (w : World) :
    (World.afterFailures c req k pf w).calls = w.calls + k := by
  induction k generalizing pf w with
  | zero => rfl
  | succ k ih =>
    rw [World.afterFailures, ih]
    simp [World.afterFailure]
    omega

theorem afterFailures_trace (c : HttpClient) (req : Request) (k : Nat) (pf : Int) (w : World) :
    (World.afterFailures c req k pf w).trace = w.trace ++ retryEvents c req k w.calls pf := by
  induction k generalizing pf w with
  | zero => simp [World.afterFailures, retryEvents]
  | succ k ih =>
    rw [World.afterFailures, ih]
    simp [World.afterFailure, retryEvents]

theorem requestWithRetry_failures (c : HttpClient) (req : Request) (k : Nat) (pf : Int)
    (w : World) (hk : k ≤ (c.MaxRetries - pf).toNat)
    (hf : ∀ i : Nat, i < k → (c.Client (w.calls + i) req).failed = true) :
    requestWithRetry c req pf w
      = requestWithRetry c req (pf + k) (World.afterFailures c req k pf w) := by
  induction k generalizing pf w with
  | zero => simp [World.afterFailures]
  | succ k ih =>
    have h0 := hf 0 (Nat.succ_pos k)
    rw [Nat.add_zero] at h0
    rw [requestWithRetry_retry c req pf w (by omega) h0]
    rw [World.afterFailures]
    rw [ih (pf + 1) _ (by omega)]
    · congr 1
      push_cast
      ring
    · intro i hi
      have := hf (i + 1) (by omega)
      simpa [World.afterFailure, Nat.add_assoc, Nat.add_comm 1 i] using this

theorem warningEvents_failed (req : Request) (failed : Int) (r : DoResult)
    (hf : r.failed = true) :
    attempts (warningEvents req failed r) = 0 ∧ warnings (warningEvents req failed r) = 1
      ∧ terminalErrors (warningEvents req failed r) = 0 ∧ sleeps (warningEvents req failed r) = []
      ∧ sent (warningEvents req failed r) = [] ∧ received (warningEvents req failed r) = [] := by
  obtain ⟨resp, err⟩ := r
  cases err <;> cases resp <;>
    simp_all [DoResult.failed, warningEvents, attempts, warnings, terminalErrors, sleeps, sent,
      received]

theorem warningEvents_any (req : Request) (failed : Int) (r : DoResult) :
    attempts (warningEvents req failed r) = 0
      ∧ terminalErrors (warningEvents req failed r) = 0 ∧ sleeps (warningEvents req failed r) = []
      ∧ sent (warningEvents req failed r) = [] ∧ received (warningEvents req failed r) = [] := by
  obtain ⟨resp, err⟩ := r
  cases err <;> cases resp <;>
    simp [warningEvents, attempts, terminalErrors, sleeps, sent, received]

theorem attempts_append (a b : List Event) : attempts (a ++ b) = attempts a + attempts b := by
  simp [attempts]

theorem warnings_append (a b : List Event) : warnings (a ++ b) = warnings a + warnings b := by
  simp [warnings]

theorem terminalErrors_append (a b : List Event) :
    terminalErrors (a ++ b) = terminalErrors a + terminalErrors b := by
  simp [terminalErrors]

theorem sleeps_append (a b : List Event) : sleeps (a ++ b) = sleeps a ++ sleeps b := by
  simp [sleeps]

theorem sent_append (a b : List Event) : sent (a ++ b) = sent a ++ sent b := by
  simp [sent]

theorem received_append (a b : List Event) : received (a ++ b) = received a ++ received b := by
  simp [received]

theorem retryEvents_attempts (c : HttpClient) (req : Request) (k call : Nat) (pf : Int) :
    attempts (retryEvents c req k call pf) = k := by
  induction k generalizing call pf with
  | zero => rfl
  | succ k ih =>
    rw [retryEvents]
    simp only [attempts_append, ih, (warningEvents_any req _ _).1]
    simp [attempts]
    omega

theorem retryEvents_warnings (c : HttpClient) (req : Request) (k call : Nat) (pf : Int)
    (hf : ∀ i : Nat, i < k → (c.Client (call + i) req).failed = true) :
    warnings (retryEvents c req k call pf) = k := by
  induction k generalizing call pf with
  | zero => rfl
  | succ k ih =>
    rw [retryEvents]
    have h0 := hf 0 (Nat.succ_pos k)
    rw [Nat.add_zero] at h0
    have hrest : ∀ i : Nat, i < k → (c.Client (call + 1 + i) req).failed = true := by
      intro i hi
      have := hf (i + 1) (by omega)
      simpa [Nat.add_assoc, Nat.add_comm 1 i] using this
    simp only [warnings_append, ih _ _ hrest, (warningEvents_failed req _ _ h0).2.1]
    simp [warnings]
    omega

theorem retryEvents_quiet (c : HttpClient) (req : Request) (k call : Nat) (pf : Int) :
    terminalErrors (retryEvents c req k call pf) = 0 ∧ sent (retryEvents c req k call pf) = []
      ∧ received (retryEvents c req k call pf) = [] := by
  induction k generalizing call pf with
  | zero => simp [retryEvents, terminalErrors, sent, received]
  | succ k ih =>
    rw [retryEvents]
    obtain ⟨_, h2, _, h4, h5⟩ := warningEvents_any req (pf + 1) (c.Client call req)
    obtain ⟨i1, i2, i3⟩ := ih (call + 1) (pf + 1)
    simp only [terminalErrors_append, sent_append, received_append, h2, h4, h5, i1, i2, i3]
    simp [terminalErrors, sent, received]

theorem retryEvents_sleeps (c : HttpClient) (req : Request) (k call : Nat) (pf : Int) :
    sleeps (retryEvents c req k call pf)
      = (List.range k).map (fun i : Nat => sleepDuration (pf + 1 + i)) := by
  induction k generalizing call pf with
  | zero => simp [retryEvents, sleeps]
  | succ k ih =>
    rw [retryEvents]
    simp only [sleeps_append, ih, (warningEvents_any req _ _).2.2.1]
    rw [List.range_succ_eq_map]
    simp [sleeps, Function.comp_def]
    intro a _
    congr 1
    ring

theorem requestWorker_cons (ctx : Context) (transport : Nat → Request → DoResult)
    (parse : String → Except Error String) (url : String) (rest : List String) (w : World) :
    requestWorker ctx transport parse (url :: rest) w
      = match handleURL ctx parse (NewHttpClient ctx transport) url (w.emit (Event.Recv url)) with
        | (.error p, w1) => (.error p, w1)
        | (.ok (), w1) => requestWorker ctx transport parse rest w1 := rfl

theorem requestWithRetry_then_success (c : HttpClient) (req : Request) (w : World) (k : Nat)
    (resp : Response) (hk : (k : Int) ≤ c.MaxRetries)
    (hf : ∀ i : Nat, i < k → (c.Client (w.calls + i) req).failed = true)
    (hr : c.Client (w.calls + k) req = ⟨some resp, none⟩) (hs : resp.StatusCode < 500) :
    (requestWithRetry c req 0 w).1 = .ok ⟨some resp, none⟩
      ∧ (requestWithRetry c req 0 w).2.calls = w.calls + k + 1
      ∧ (requestWithRetry c req 0 w).2.trace
          = w.trace ++ (retryEvents c req k w.calls 0 ++ [Event.Do req]) := by
  have hr2 : c.Client (World.afterFailures c req k 0 w).calls req = ⟨some resp, none⟩ := by
    rw [afterFailures_calls]; exact hr
  rw [requestWithRetry_failures c req k 0 w (by omega) hf,
    requestWithRetry_success c req _ _ resp hr2 hs]
  simp [afterFailures_calls, afterFailures_trace]

theorem chain_counts (c : HttpClient) (req : Request) (k call : Nat)
    (hf : ∀ i : Nat, i < k → (c.Client (call + i) req).failed = true) (fin : List Event)
    (pre : List Event) :
    attempts (pre ++ (retryEvents c req k call 0 ++ [Event.Do req]) ++ fin)
        = attempts pre + k + 1 + attempts fin
      ∧ warnings (pre ++ (retryEvents c req k call 0 ++ [Event.Do req]) ++ fin)
        = warnings pre + k + warnings fin
      ∧ terminalErrors (pre ++ (retryEvents c req k call 0 ++ [Event.Do req]) ++ fin)
        = terminalErrors pre + terminalErrors fin
      ∧ sent (pre ++ (retryEvents c req k call 0 ++ [Event.Do req]) ++ fin)
        = sent pre ++ sent fin := by
  obtain ⟨q1, q2, _⟩ := retryEvents_quiet c req k call 0
  simp only [attempts_append, warnings_append, terminalErrors_append, sent_append,
    retryEvents_attempts, retryEvents_warnings c req k call 0 hf, q1, q2]
  simp [attempts, warnings, terminalErrors, sent]
  omega

theorem handleURL_sent (ctx : Context) (parse : String → Except Error String) (c : HttpClient)
    (url : String) (w : World) (req : Request) (resp : Option Response)
    (hb : createRequest parse url ctx.RequestMethod ctx.RequestHeaders = .ok req)
    (h1 : (requestWithRetry c req 0 w).1 = .ok ⟨resp, none⟩) :
    handleURL ctx parse c url w
      = (.ok (), (requestWithRetry c req 0 w).2.emit (Event.Send resp)) := by
  simp only [handleURL, hb]
  generalize requestWithRetry c req 0 w = q at h1 ⊢
  obtain ⟨q1, q2⟩ := q
  simp only at h1
  subst h1
  rfl

theorem handleURL_dropped (ctx : Context) (parse : String → Except Error String) (c : HttpClient)
    (url : String) (w : World) (req : Request) (resp : Option Response) (err : Error)
    (hb : createRequest parse url ctx.RequestMethod ctx.RequestHeaders = .ok req)
    (h1 : (requestWithRetry c req 0 w).1 = .ok ⟨resp, some err⟩) :
    handleURL ctx parse c url w
      = (.ok (), (requestWithRetry c req 0 w).2.emit
          (Event.LogError Caller.requestWorker err url)) := by
  simp only [handleURL, hb]
  generalize requestWithRetry c req 0 w = q at h1 ⊢
  obtain ⟨q1, q2⟩ := q
  simp only at h1
  subst h1
  rfl

theorem handleURL_panic (ctx : Context) (parse : String → Except Error String) (c : HttpClient)
    (url : String) (w : World) (req : Request) (p : Panic)
    (hb : createRequest parse url ctx.RequestMethod ctx.RequestHeaders = .ok req)
    (h1 : (requestWithRetry c req 0 w).1 = .error p) :
    handleURL ctx parse c url w = (.error p, (requestWithRetry c req 0 w).2) := by
  simp only [handleURL, hb]
  generalize requestWithRetry c req 0 w = q at h1 ⊢
  obtain ⟨q1, q2⟩ := q
  simp only at h1
  subst h1
  rfl

theorem retry_decompose (c : HttpClient) (req : Request) (n : Nat) :
    ∀ (pf : Int) (calls : Nat), (c.MaxRetries - pf).toNat = n →
      ∃ k : Nat, k ≤ n ∧ (∀ i : Nat, i < k → (c.Client (calls + i) req).failed = true)
        ∧ (¬ (pf + k < c.MaxRetries) ∨ (c.Client (calls + k) req).failed = false) := by
  induction n with
  | zero =>
    intro pf calls h
    refine ⟨0, le_refl _, fun i hi => absurd hi (Nat.not_lt_zero i), Or.inl ?_⟩
    push_cast
    omega
  | succ n ih =>
    intro pf calls h
    by_cases hf : (c.Client calls req).failed = true
    · obtain ⟨k, hk, hfk, hlast⟩ := ih (pf + 1) (calls + 1) (by omega)
      refine ⟨k + 1, by omega, ?_, ?_⟩
      · intro i hi
        cases i with
        | zero => simpa using hf
        | succ i =>
          have := hfk i (by omega)
          simpa [Nat.add_assoc, Nat.add_comm 1 i] using this
      · rcases hlast with h1 | h1
        · left
          push_cast
          intro h2
          apply h1
          omega
        · right
          simpa [Nat.add_assoc, Nat.add_comm 1 k] using h1
    · refine ⟨0, Nat.zero_le _, fun i hi => absurd hi (Nat.not_lt_zero i), Or.inr ?_⟩
      simpa using hf

theorem requestWithRetry_last (c : HttpClient) (req : Request) (pf : Int) (w : World)
    (h : ¬ (pf < c.MaxRetries) ∨ (c.Client w.calls req).failed = false) :
    (requestWithRetry c req pf w).2.trace = w.trace ++ [Event.Do req]
      ∧ (requestWithRetry c req pf w).2.calls = w.calls + 1
      ∧ (∃ extra : List Nat, (requestWithRetry c req pf w).2.statusReads = w.statusReads ++ extra
          ∧ ∀ m ∈ extra, m = w.calls ∧ (c.Client w.calls req).err = none)
      ∧ ((requestWithRetry c req pf w).1 = .ok (c.Client w.calls req)
          ∨ ((requestWithRetry c req pf w).1 = .error Panic.nilDereference
              ∧ c.Client w.calls req = ⟨none, none⟩)) := by
  by_cases hlt : pf < c.MaxRetries
  · have hf : (c.Client w.calls req).failed = false := by
      rcases h with h | h
      · exact absurd hlt h
      · exact h
    rcases hr : c.Client w.calls req with ⟨resp, err⟩
    rw [hr] at hf
    cases err with
    | some e => simp [DoResult.failed] at hf
    | none =>
      cases resp with
      | none =>
        rw [requestWithRetry_nil c req pf w hlt hr]
        exact ⟨rfl, rfl, ⟨[w.calls], rfl, by simp⟩, Or.inr ⟨rfl, rfl⟩⟩
      | some resp =>
        have hs : resp.StatusCode < 500 := by
          simp [DoResult.failed] at hf
          exact hf
        rw [requestWithRetry_success c req pf w resp hr hs]
        exact ⟨rfl, rfl, ⟨_, rfl, by simp [hlt]⟩, Or.inl rfl⟩
  · rw [requestWithRetry_terminal c req pf w hlt]
    exact ⟨rfl, rfl, ⟨[], by simp [World.recordDo], by simp⟩, Or.inl rfl⟩

theorem afterFailures_statusReads (c : HttpClient) (req : Request) (k : Nat) (pf : Int)
    (w : World) :
    ∃ extra : List Nat, (World.afterFailures c req k pf w).statusReads = w.statusReads ++ extra
      ∧ ∀ m ∈ extra, w.calls ≤ m ∧ m < w.calls + k ∧ (c.Client m req).err = none := by
  induction k generalizing pf w with
  | zero => exact ⟨[], by simp [World.afterFailures], by simp⟩
  | succ k ih =>
    obtain ⟨extra, he, hall⟩ := ih (pf + 1) (w.afterFailure req pf (c.Client w.calls req))
    refine ⟨failureReads w.calls (c.Client w.calls req) ++ extra, ?_, ?_⟩
    · rw [World.afterFailures, he]
      simp [World.afterFailure]
    · intro m hm
      rcases List.mem_append.mp hm with h1 | h1
      · unfold failureReads at h1
        split at h1
        · simp at h1
        · rename_i herr
          simp at h1
          subst h1
          exact ⟨le_refl _, by omega, herr⟩
      · obtain ⟨a, b, d⟩ := hall m h1
        simp only [World.afterFailure] at a b
        exact ⟨by omega, by omega, d⟩

theorem requestWithRetry_run (c : HttpClient) (req : Request) (pf : Int) (w : World) :
    ∃ k : Nat, k ≤ (c.MaxRetries - pf).toNat
      ∧ (∀ i : Nat, i < k → (c.Client (w.calls + i) req).failed = true)
      ∧ (¬ (pf + k < c.MaxRetries) ∨ (c.Client (w.calls + k) req).failed = false)
      ∧ (requestWithRetry c req pf w).2.trace
          = w.trace ++ (retryEvents c req k w.calls pf ++ [Event.Do req])
      ∧ (requestWithRetry c req pf w).2.calls = w.calls + k + 1
      ∧ (∃ extra : List Nat,
          (requestWithRetry c req pf w).2.statusReads = w.statusReads ++ extra
            ∧ ∀ m ∈ extra, (c.Client m req).err = none)
      ∧ ((requestWithRetry c req pf w).1 = .ok (c.Client (w.calls + k) req)
          ∨ ((requestWithRetry c req pf w).1 = .error Panic.nilDereference
              ∧ c.Client (w.calls + k) req = ⟨none, none⟩)) := by
  obtain ⟨k, hk, hf, hlast⟩ := retry_decompose c req _ pf w.calls rfl
  have hle : k ≤ (c.MaxRetries - pf).toNat := hk
  have hlast2 : ¬ (pf + k < c.MaxRetries)
      ∨ (c.Client (World.afterFailures c req k pf w).calls req).failed = false := by
    rw [afterFailures_calls]; exact hlast
  obtain ⟨t1, t2, ⟨e2, t3, t4⟩, t5⟩ :=
    requestWithRetry_last c req (pf + k) (World.afterFailures c req k pf w) hlast2
  obtain ⟨e1, r1, r2⟩ := afterFailures_statusReads c req k pf w
  refine ⟨k, hk, hf, hlast, ?_, ?_, ⟨e1 ++ e2, ?_, ?_⟩, ?_⟩
  · rw [requestWithRetry_failures c req k pf w hle hf, t1, afterFailures_trace]
    simp
  · rw [requestWithRetry_failures c req k pf w hle hf, t2, afterFailures_calls]
  · rw [requestWithRetry_failures c req k pf w hle hf, t3, r1]
    simp
  · intro m hm
    rcases List.mem_append.mp hm with h1 | h1
    · exact (r2 m h1).2.2
    · obtain ⟨a, b⟩ := t4 m h1
      rw [a]
      exact b
  · rw [requestWithRetry_failures c req k pf w hle hf]
    rw [afterFailures_calls] at t5
    exact t5

theorem sleepDuration_seconds (k : Int) (h0 : 0 ≤ k) (h1 : k ≤ 9223372036) :
    sleepDuration k = k * Second := by
  unfold sleepDuration wrapInt64 Second
  omega

theorem createRequest_error (parse : String → Except Error String) (url method : String)
    (headers : List RequestHeader) (err : Error)
    (h : NewRequest parse method url = .error err) :
    createRequest parse url method headers = .error (Panic.buildError err) := by
  simp [createRequest, h]

theorem createRequest_ok (parse : String → Except Error String) (url method : String)
    (headers : List RequestHeader) (base : Request)
    (h : NewRequest parse method url = .ok base) :
    ∃ req, createRequest parse url method headers = .ok req := by
  simp [createRequest, h]

theorem requestWorker_append (ctx : Context) (transport : Nat → Request → DoResult)
    (parse : String → Except Error String) (pre post : List String) (w : World) :
    requestWorker ctx transport parse (pre ++ post) w
      = match requestWorker ctx transport parse pre w with
        | (.error p, w1) => (.error p, w1)
        | (.ok (), w1) => requestWorker ctx transport parse post w1 := by
  induction pre generalizing w with
  | nil => rfl
  | cons url pre ih =>
    rw [List.cons_append, requestWorker_cons, requestWorker_cons]
    rcases handleURL ctx parse (NewHttpClient ctx transport) url (w.emit (Event.Recv url))
      with ⟨r | u, w1⟩
    · rfl
    · exact ih w1

theorem requestWorker_build_error (ctx : Context) (transport : Nat → Request → DoResult)
    (parse : String → Except Error String) (pre post : List String) (url : String) (w : World)
    (err : Error) (hbad : NewRequest parse ctx.RequestMethod url = .error err) :
    requestWorker ctx transport parse (pre ++ url :: post) w
      = match requestWorker ctx transport parse pre w with
        | (.error p, w1) => (.error p, w1)
        | (.ok (), w1) => (.error (Panic.buildError err), w1.emit (Event.Recv url)) := by
  rw [requestWorker_append]
  rcases requestWorker ctx transport parse pre w with ⟨r | u, w1⟩
  · rfl
  · simp only [requestWorker_cons, handleURL,
      createRequest_error parse url ctx.RequestMethod ctx.RequestHeaders err hbad]

theorem finalEvent_counts (url : String) (r : DoResult) :
    (sent [finalEvent url r]).length + terminalErrors [finalEvent url r] = 1
      ∧ received [finalEvent url r] = [] := by
  obtain ⟨resp, err⟩ := r
  cases err <;> simp [finalEvent, sent, terminalErrors, received]

theorem handleURL_outcome (ctx : Context) (parse : String → Except Error String)
    (c : HttpClient) (url : String) (w : World) (base : Request)
    (hb : NewRequest parse ctx.RequestMethod url = .ok base) (hc : ClientContract c.Client) :
    ∃ (req : Request) (k : Nat),
      createRequest parse url ctx.RequestMethod ctx.RequestHeaders = .ok req
        ∧ k ≤ c.MaxRetries.toNat
        ∧ (∀ i : Nat, i < k → (c.Client (w.calls + i) req).failed = true)
        ∧ (k = c.MaxRetries.toNat ∨ (c.Client (w.calls + k) req).failed = false)
        ∧ (handleURL ctx parse c url w).1 = .ok ()
        ∧ (handleURL ctx parse c url w).2.trace
            = w.trace ++ (retryEvents c req k w.calls 0 ++ [Event.Do req]
                ++ [finalEvent url (c.Client (w.calls + k) req)])
        ∧ (handleURL ctx parse c url w).2.calls = w.calls + k + 1 := by
  obtain ⟨req, hreq⟩ := createRequest_ok parse url ctx.RequestMethod ctx.RequestHeaders base hb
  obtain ⟨k, hk, hf, hlast, htr, hcalls, _, hres⟩ := requestWithRetry_run c req 0 w
  have hok : (requestWithRetry c req 0 w).1 = .ok (c.Client (w.calls + k) req) := by
    rcases hres with h | ⟨_, h⟩
    · exact h
    · exact absurd (by rw [h]) (hc (w.calls + k) req (by rw [h]))
  have hk2 : k ≤ c.MaxRetries.toNat := by omega
  have hlast2 : k = c.MaxRetries.toNat ∨ (c.Client (w.calls + k) req).failed = false := by
    rcases hlast with h | h
    · left
      omega
    · exact Or.inr h
  refine ⟨req, k, hreq, hk2, hf, hlast2, ?_⟩
  rcases hr : c.Client (w.calls + k) req with ⟨resp, err⟩
  rw [hr] at hok
  cases err with
  | none =>
    rw [handleURL_sent ctx parse c url w req resp hreq hok]
    refine ⟨rfl, ?_, hcalls⟩
    simp only [World.emit, finalEvent]
    rw [htr, List.append_assoc]
  | some e =>
    rw [handleURL_dropped ctx parse c url w req resp e hreq hok]
    refine ⟨rfl, ?_, hcalls⟩
    simp only [World.emit, finalEvent]
    rw [htr, List.append_assoc]

theorem eventsSince_of_trace (w1 w : World) (delta : List Event)
    (h : w1.trace = w.trace ++ delta) : w1.eventsSince w = delta := by
  unfold World.eventsSince
  rw [h]
  exact List.drop_left _ _

theorem index_assignEntry (es : List (String × List String)) (key : String) (vs : List String)
    (x : String) :
    Header.index ⟨assignEntry es key vs⟩ x = if x = key then vs else Header.index ⟨es⟩ x := by
  induction es with
  | nil =>
    by_cases h : x = key
    · simp [assignEntry, Header.index, h]
    · have h2 : ¬ key = x := fun e => h e.symm
      simp [assignEntry, Header.index, h, h2]
  | cons e es ih =>
    obtain ⟨k, v⟩ := e
    by_cases hk : k = key
    · by_cases h : x = key
      · simp [assignEntry, Header.index, hk, h]
      · have h2 : ¬ key = x := fun e => h e.symm
        simp [assignEntry, Header.index, hk, h, h2]
    · by_cases hx : k = x
      · have h : ¬ x = key := fun e => hk (hx.trans e)
        simp [assignEntry, Header.index, hk, hx, h]
      · simpa [assignEntry, Header.index, hk, hx, List.find?_cons] using ih

theorem index_Add (h : Header) (key value x : String) :
    (h.Add key value).index x
      = if x = CanonicalMIMEHeaderKey key then h.index x ++ [value] else h.index x := by
  unfold Header.Add
  rw [index_assignEntry]
  by_cases hx : x = CanonicalMIMEHeaderKey key
  · simp [hx]
  · simp [hx]

theorem foldl_Add (headers : List RequestHeader) (req : Request) :
    (headers.foldl
        (fun (r : Request) header => { r with Header := r.Header.Add header.Key header.Value })
        req).Method = req.Method
      ∧ (headers.foldl
        (fun (r : Request) header => { r with Header := r.Header.Add header.Key header.Value })
        req).URL = req.URL
      ∧ ∀ name, (headers.foldl
        (fun (r : Request) header => { r with Header := r.Header.Add header.Key header.Value })
        req).Header.Values name = req.Header.Values name ++ configuredValues headers name := by
  induction headers generalizing req with
  | nil => simp [configuredValues]
  | cons hd tl ih =>
    obtain ⟨i1, i2, i3⟩ := ih { req with Header := req.Header.Add hd.Key hd.Value }
    refine ⟨i1, i2, ?_⟩
    intro name
    rw [List.foldl_cons, i3 name]
    simp only [Header.Values, index_Add, configuredValues, List.filter_cons]
    by_cases hn : CanonicalMIMEHeaderKey name = CanonicalMIMEHeaderKey hd.Key
    · simp [hn]
    · have hn2 : ¬ CanonicalMIMEHeaderKey hd.Key = CanonicalMIMEHeaderKey name :=
        fun e => hn e.symm
      simp [hn, hn2]

theorem NewRequest_header (parse : String → Except Error String) (method url : String)
    (base : Request) (h : NewRequest parse method url = .ok base) : base.Header = ⟨[]⟩ := by
  unfold NewRequest at h
  by_cases hv : validMethod (if method = "" then "GET" else method) = true
  · cases hp : parse url with
    | error e => simp [hv, hp] at h
    | ok u =>
      simp [hv, hp] at h
      rw [← h]
  · simp [hv] at h

theorem createRequest_values (parse : String → Except Error String) (url method : String)
    (headers : List RequestHeader) (base : Request)
    (hb : NewRequest parse method url = .ok base) :
    ∃ req, createRequest parse url method headers = .ok req
      ∧ req.Method = base.Method ∧ req.URL = base.URL
      ∧ ∀ name, req.Header.Values name
          = configuredValues headers name
            ++ (if CanonicalMIMEHeaderKey name = "Connection" then ["keep-alive"] else []) := by
  obtain ⟨i1, i2, i3⟩ := foldl_Add headers base
  simp only [createRequest, hb]
  refine ⟨_, rfl, i1, i2, ?_⟩
  intro name
  have hcanon : CanonicalMIMEHeaderKey "connection" = "Connection" := by decide
  have hempty : base.Header.index (CanonicalMIMEHeaderKey name) = [] := by
    rw [NewRequest_header parse method url base hb]
    rfl
  have h3 := i3 name
  unfold Header.Values at h3 ⊢
  rw [index_Add, hcanon, h3, hempty]
  split <;> simp

theorem requestWithRetry_exhausted (c : HttpClient) (req : Request) (w : World)
    (h0 : 0 ≤ c.MaxRetries)
    (hf : ∀ i : Nat, i < c.MaxRetries.toNat → (c.Client (w.calls + i) req).failed = true) :
    requestWithRetry c req 0 w
      = (.ok (c.Client (w.calls + c.MaxRetries.toNat) req),
          (World.afterFailures c req c.MaxRetries.toNat 0 w).recordDo req) := by
  have hn : (0 : Int) + (c.MaxRetries.toNat : Nat) = c.MaxRetries := by
    rw [Int.toNat_of_nonneg h0]; ring
  rw [requestWithRetry_failures c req c.MaxRetries.toNat 0 w (by omega) hf, hn,
    requestWithRetry_terminal c req _ _ (lt_irrefl _), afterFailures_calls]

theorem handleURL_no_retries (ctx : Context) (parse : String → Except Error String)
    (transport : Nat → Request → DoResult) (url : String) (w : World) (req : Request)
    (hb : createRequest parse url ctx.RequestMethod ctx.RequestHeaders = .ok req)
    (h0 : ctx.Retries ≤ 0) :
    handleURL ctx parse (NewHttpClient ctx transport) url w
      = match (transport w.calls req).err with
        | none => (.ok (), (w.recordDo req).emit (Event.Send (transport w.calls req).response))
        | some err =>
          (.ok (), (w.recordDo req).emit (Event.LogError Caller.requestWorker err url)) := by
  have hnot : ¬ (0 < (NewHttpClient ctx transport).MaxRetries) := by
    simp only [NewHttpClient]
    omega
  simp only [handleURL, hb]
  rw [requestWithRetry_terminal _ req 0 w hnot]
  rfl

/-! ## The claims -/

/-- C1: for every `MaxRetries` and every `previouslyFailed`, when the attempt
returns a nil error and a response with status below 500, `requestWithRetry`
returns exactly that response with a nil error; it calls `Do` once and its only
effect is that call, so there is no further attempt, no warning and no sleep. -/
theorem success_returned_without_retry (c : HttpClient) (req : Request) (pf : Int) (w : World)
    (resp : Response) (hr : c.Client w.calls req = ⟨some resp, none⟩)
    (hs : resp.StatusCode < 500) :
    (requestWithRetry c req pf w).1 = .ok ⟨some resp, none⟩
      ∧ (requestWithRetry c req pf w).2.calls = w.calls + 1
      ∧ (requestWithRetry c req pf w).2.trace = w.trace ++ [Event.Do req]
      ∧ warnings [Event.Do req] = 0 ∧ sleeps [Event.Do req] = [] := by
  rw [requestWithRetry_success c req pf w resp hr hs]
  simp [warnings, sleeps]

/-- Instance of C1: a 404 response with three retries allowed is returned
after the single attempt. -/
theorem success_returned_without_retry_witness :
    transportNotFound emptyWorld.calls exampleRequest = ⟨some ⟨404, "not found"⟩, none⟩
      ∧ (404 : Int) < 500
      ∧ (requestWithRetry ⟨3, transportNotFound⟩ exampleRequest 0 emptyWorld).1
          = .ok ⟨some ⟨404, "not found"⟩, none⟩
      ∧ (requestWithRetry ⟨3, transportNotFound⟩ exampleRequest 0 emptyWorld).2.trace
          = [Event.Do exampleRequest] :=
  have h := success_returned_without_retry ⟨3, transportNotFound⟩ exampleRequest 0 emptyWorld
    ⟨404, "not found"⟩ rfl (by decide)
  ⟨rfl, by decide, h.1, h.2.2.1⟩

/-- C2: with `MaxRetries >= 0` and every attempt failing, `requestWithRetry`
started at `previouslyFailed = 0` calls `Do` exactly `MaxRetries + 1` times and
logs exactly `MaxRetries` warnings.  Its effects are, for each of the first
`MaxRetries` attempts, the call, its warning and its sleep, and then the last
call alone, whose result is returned as it is. -/
theorem exhausted_chain_attempts_and_warnings (c : HttpClient) (req : Request) (w : World)
    (h0 : 0 ≤ c.MaxRetries)
    (hf : ∀ i : Nat, i ≤ c.MaxRetries.toNat → (c.Client (w.calls + i) req).failed = true) :
    (requestWithRetry c req 0 w).1 = .ok (c.Client (w.calls + c.MaxRetries.toNat) req)
      ∧ (requestWithRetry c req 0 w).2.calls = w.calls + c.MaxRetries.toNat + 1
      ∧ (requestWithRetry c req 0 w).2.trace
          = w.trace ++ (retryEvents c req c.MaxRetries.toNat w.calls 0 ++ [Event.Do req])
      ∧ attempts (retryEvents c req c.MaxRetries.toNat w.calls 0 ++ [Event.Do req])
          = c.MaxRetries.toNat + 1
      ∧ warnings (retryEvents c req c.MaxRetries.toNat w.calls 0 ++ [Event.Do req])
          = c.MaxRetries.toNat
      ∧ (sleeps (retryEvents c req c.MaxRetries.toNat w.calls 0 ++ [Event.Do req])).length
          = c.MaxRetries.toNat := by
  have hf2 : ∀ i : Nat, i < c.MaxRetries.toNat → (c.Client (w.calls + i) req).failed = true :=
    fun i hi => hf i (Nat.le_of_lt hi)
  rw [requestWithRetry_exhausted c req w h0 hf2]
  simp only [World.recordDo, afterFailures_calls, afterFailures_trace, attempts_append,
    warnings_append, sleeps_append, retryEvents_attempts, retryEvents_warnings c req _ _ _ hf2,
    retryEvents_sleeps]
  simp [attempts, warnings, sleeps, List.append_assoc]

/-- Instance of C2: two retries allowed and three timeouts give three
attempts and two warnings. -/
theorem exhausted_chain_attempts_and_warnings_witness :
    (0 : Int) ≤ 2
      ∧ (∀ i : Nat, i ≤ 2 → (transportTimeout (0 + i) exampleRequest).failed = true)
      ∧ (requestWithRetry ⟨2, transportTimeout⟩ exampleRequest 0 emptyWorld).1
          = .ok ⟨none, some "timeout"⟩
      ∧ (requestWithRetry ⟨2, transportTimeout⟩ exampleRequest 0 emptyWorld).2.calls = 3
      ∧ attempts (requestWithRetry ⟨2, transportTimeout⟩ exampleRequest 0 emptyWorld).2.trace = 3
      ∧ warnings (requestWithRetry ⟨2, transportTimeout⟩ exampleRequest 0 emptyWorld).2.trace = 2 :=
  have h := exhausted_chain_attempts_and_warnings ⟨2, transportTimeout⟩ exampleRequest emptyWorld
    (by decide) (fun _ _ => rfl)
  ⟨by decide, fun _ _ => rfl, h.1, h.2.1, by rw [h.2.2.1]; exact h.2.2.2.1,
    by rw [h.2.2.1]; exact h.2.2.2.2.1⟩

theorem handleURL_exhausted (ctx : Context) (parse : String → Except Error String)
    (transport : Nat → Request → DoResult) (url : String) (w : World) (req : Request)
    (hb : createRequest parse url ctx.RequestMethod ctx.RequestHeaders = .ok req)
    (h0 : 0 ≤ ctx.Retries)
    (hf : ∀ i : Nat, i < ctx.Retries.toNat → (transport (w.calls + i) req).failed = true) :
    handleURL ctx parse (NewHttpClient ctx transport) url w
      = match (transport (w.calls + ctx.Retries.toNat) req).err with
        | none =>
          (.ok (), ((World.afterFailures (NewHttpClient ctx transport) req ctx.Retries.toNat 0
            w).recordDo req).emit
              (Event.Send (transport (w.calls + ctx.Retries.toNat) req).response))
        | some err =>
          (.ok (), ((World.afterFailures (NewHttpClient ctx transport) req ctx.Retries.toNat 0
            w).recordDo req).emit (Event.LogError Caller.requestWorker err url)) := by
  have h := requestWithRetry_exhausted (NewHttpClient ctx transport) req w h0 hf
  simp only [handleURL, hb]
  rw [h]
  rfl

/-- C3 (as amended): when every attempt for a URL fails, what `requestWorker`
does with the URL depends on the last attempt.  If it is a transport error,
nothing is sent to the sink and exactly one terminal error is reported, by the
worker, after the `MaxRetries` warnings.  If it is a response with status 500
or more and a nil error, that response is sent to the sink and no terminal
error is reported.  In both cases the worker goes on with the next URL. -/
theorem exhausted_url_outcome (ctx : Context) (transport : Nat → Request → DoResult)
    (parse : String → Except Error String) (url : String) (rest : List String) (w : World)
    (req : Request)
    (hb : createRequest parse url ctx.RequestMethod ctx.RequestHeaders = .ok req)
    (h0 : 0 ≤ ctx.Retries)
    (hf : ∀ i : Nat, i ≤ ctx.Retries.toNat → (transport (w.calls + i) req).failed = true) :
    requestWorker ctx transport parse (url :: rest) w
        = requestWorker ctx transport parse rest
            (handleURL ctx parse (NewHttpClient ctx transport) url (w.emit (Event.Recv url))).2
      ∧ (∀ err, (transport (w.calls + ctx.Retries.toNat) req).err = some err →
          (handleURL ctx parse (NewHttpClient ctx transport) url
              (w.emit (Event.Recv url))).2.trace
            = w.trace ++ ([Event.Recv url]
                ++ (retryEvents (NewHttpClient ctx transport) req ctx.Retries.toNat w.calls 0
                    ++ [Event.Do req])
                ++ [Event.LogError Caller.requestWorker err url])
          ∧ sent ([Event.Recv url]
                ++ (retryEvents (NewHttpClient ctx transport) req ctx.Retries.toNat w.calls 0
                    ++ [Event.Do req])
                ++ [Event.LogError Caller.requestWorker err url]) = []
          ∧ terminalErrors ([Event.Recv url]
                ++ (retryEvents (NewHttpClient ctx transport) req ctx.Retries.toNat w.calls 0
                    ++ [Event.Do req])
                ++ [Event.LogError Caller.requestWorker err url]) = 1
          ∧ warnings ([Event.Recv url]
                ++ (retryEvents (NewHttpClient ctx transport) req ctx.Retries.toNat w.calls 0
                    ++ [Event.Do req])
                ++ [Event.LogError Caller.requestWorker err url]) = ctx.Retries.toNat)
      ∧ ((transport (w.calls + ctx.Retries.toNat) req).err = none →
          (handleURL ctx parse (NewHttpClient ctx transport) url
              (w.emit (Event.Recv url))).2.trace
            = w.trace ++ ([Event.Recv url]
                ++ (retryEvents (NewHttpClient ctx transport) req ctx.Retries.toNat w.calls 0
                    ++ [Event.Do req])
                ++ [Event.Send (transport (w.calls + ctx.Retries.toNat) req).response])
          ∧ sent ([Event.Recv url]
                ++ (retryEvents (NewHttpClient ctx transport) req ctx.Retries.toNat w.calls 0
                    ++ [Event.Do req])
                ++ [Event.Send (transport (w.calls + ctx.Retries.toNat) req).response])
              = [(transport (w.calls + ctx.Retries.toNat) req).response]
          ∧ terminalErrors ([Event.Recv url]
                ++ (retryEvents (NewHttpClient ctx transport) req ctx.Retries.toNat w.calls 0
                    ++ [Event.Do req])
                ++ [Event.Send (transport (w.calls + ctx.Retries.toNat) req).response]) = 0
          ∧ warnings ([Event.Recv url]
                ++ (retryEvents (NewHttpClient ctx transport) req ctx.Retries.toNat w.calls 0
                    ++ [Event.Do req])
                ++ [Event.Send (transport (w.calls + ctx.Retries.toNat) req).response])
              = ctx.Retries.toNat) := by
  have hf2 : ∀ i : Nat, i < ctx.Retries.toNat →
      (transport ((w.emit (Event.Recv url)).calls + i) req).failed = true :=
    fun i hi => hf i (Nat.le_of_lt hi)
  have hcnt := chain_counts (NewHttpClient ctx transport) req ctx.Retries.toNat w.calls hf2
  have hh := handleURL_exhausted ctx parse transport url (w.emit (Event.Recv url)) req hb h0 hf2
  have hcalls : (w.emit (Event.Recv url)).calls = w.calls := rfl
  rw [hcalls] at hh
  refine ⟨?_, ?_, ?_⟩
  · rw [requestWorker_cons, hh]
    cases (transport (w.calls + ctx.Retries.toNat) req).err <;> rfl
  · intro err herr
    rw [hh, herr]
    refine ⟨?_, ?_, ?_, ?_⟩
    · simp [World.emit, World.recordDo, afterFailures_trace]
    · simpa [sent] using (hcnt [Event.LogError Caller.requestWorker err url] [Event.Recv url]).2.2.2
    · simpa [terminalErrors] using
        (hcnt [Event.LogError Caller.requestWorker err url] [Event.Recv url]).2.2.1
    · simpa [warnings] using
        (hcnt [Event.LogError Caller.requestWorker err url] [Event.Recv url]).2.1
  · intro herr
    rw [hh, herr]
    refine ⟨?_, ?_, ?_, ?_⟩
    · simp [World.emit, World.recordDo, afterFailures_trace]
    · simpa [sent] using (hcnt [Event.Send (transport (w.calls + ctx.Retries.toNat) req).response]
        [Event.Recv url]).2.2.2
    · simpa [terminalErrors] using
        (hcnt [Event.Send (transport (w.calls + ctx.Retries.toNat) req).response]
          [Event.Recv url]).2.2.1
    · simpa [warnings] using
        (hcnt [Event.Send (transport (w.calls + ctx.Retries.toNat) req).response]
          [Event.Recv url]).2.1

/-- Instance of C3 as amended: one retry allowed and two timeouts give one
warning, one terminal error and no response sent. -/
theorem exhausted_url_outcome_witness :
    createRequest urlParse "http://a/" (exampleContext 1).RequestMethod
        (exampleContext 1).RequestHeaders = .ok exampleRequest
      ∧ (0 : Int) ≤ (exampleContext 1).Retries
      ∧ (∀ i : Nat, i ≤ (exampleContext 1).Retries.toNat →
          (transportTimeout (emptyWorld.calls + i) exampleRequest).failed = true)
      ∧ (requestWorker (exampleContext 1) transportTimeout urlParse ["http://a/"] emptyWorld).2.trace
          = [Event.Recv "http://a/", Event.Do exampleRequest,
              Event.LogError Caller.requestWithRetry "timeout" "http://a/ (1)",
              Event.Sleep 1000000000, Event.Do exampleRequest,
              Event.LogError Caller.requestWorker "timeout" "http://a/"] :=
  have h := exhausted_url_outcome (exampleContext 1) transportTimeout urlParse "http://a/" []
    emptyWorld exampleRequest rfl (by decide) (fun _ _ => rfl)
  ⟨rfl, by decide, fun _ _ => rfl, by rw [h.1]; exact (h.2.1 "timeout" rfl).1⟩

/-- C3 fails for a final response with status 500: with `MaxRetries = 0` and a
single 500 response the worker delivers the response to the sink and reports
no terminal error. -/
theorem exhausted_server_error_is_delivered :
    (∀ i : Nat, i ≤ (exampleContext 0).Retries.toNat →
        (transportServerError (emptyWorld.calls + i) exampleRequest).failed = true)
      ∧ (requestWorker (exampleContext 0) transportServerError urlParse ["http://a/"]
          emptyWorld).2.trace
          = [Event.Recv "http://a/", Event.Do exampleRequest,
              Event.Send (some ⟨500, "oops"⟩)]
      ∧ sent (requestWorker (exampleContext 0) transportServerError urlParse ["http://a/"]
          emptyWorld).2.trace = [some ⟨500, "oops"⟩]
      ∧ terminalErrors (requestWorker (exampleContext 0) transportServerError urlParse
          ["http://a/"] emptyWorld).2.trace = 0
      ∧ warnings (requestWorker (exampleContext 0) transportServerError urlParse
          ["http://a/"] emptyWorld).2.trace = 0 := by
  have h : requestWorker (exampleContext 0) transportServerError urlParse ["http://a/"]
      emptyWorld
      = (.ok (), ⟨1, [Event.Recv "http://a/", Event.Do exampleRequest,
          Event.Send (some ⟨500, "oops"⟩)], []⟩) := by
    rw [requestWorker_cons, handleURL_no_retries (exampleContext 0) urlParse transportServerError
      "http://a/" _ exampleRequest rfl (by decide)]
    rfl
  rw [h]
  exact ⟨fun _ _ => rfl, rfl, rfl, rfl, rfl⟩

/-- C4: when the first `k <= MaxRetries` attempts for a URL fail and attempt
`k + 1` returns a nil error and a response with status below 500,
`requestWithRetry` returns that response with a nil error after exactly `k + 1`
calls of `Do` and exactly `k` warnings, and `requestWorker` sends exactly that
one response to the sink, reports no terminal error and goes on with the next
URL. -/
theorem retry_then_success_delivered (ctx : Context) (transport : Nat → Request → DoResult)
    (parse : String → Except Error String) (url : String) (rest : List String) (w : World)
    (req : Request) (k : Nat) (resp : Response)
    (hb : createRequest parse url ctx.RequestMethod ctx.RequestHeaders = .ok req)
    (hk : (k : Int) ≤ ctx.Retries)
    (hf : ∀ i : Nat, i < k → (transport (w.calls + i) req).failed = true)
    (hr : transport (w.calls + k) req = ⟨some resp, none⟩) (hs : resp.StatusCode < 500) :
    ((requestWithRetry (NewHttpClient ctx transport) req 0 w).1 = .ok ⟨some resp, none⟩
      ∧ (requestWithRetry (NewHttpClient ctx transport) req 0 w).2.calls = w.calls + k + 1
      ∧ (requestWithRetry (NewHttpClient ctx transport) req 0 w).2.trace
          = w.trace ++ (retryEvents (NewHttpClient ctx transport) req k w.calls 0 ++ [Event.Do req])
      ∧ attempts (retryEvents (NewHttpClient ctx transport) req k w.calls 0 ++ [Event.Do req])
          = k + 1
      ∧ warnings (retryEvents (NewHttpClient ctx transport) req k w.calls 0 ++ [Event.Do req])
          = k)
    ∧ (requestWorker ctx transport parse (url :: rest) w
        = requestWorker ctx transport parse rest
            (handleURL ctx parse (NewHttpClient ctx transport) url (w.emit (Event.Recv url))).2
      ∧ (handleURL ctx parse (NewHttpClient ctx transport) url (w.emit (Event.Recv url))).2.trace
          = w.trace ++ ([Event.Recv url]
              ++ (retryEvents (NewHttpClient ctx transport) req k w.calls 0 ++ [Event.Do req])
              ++ [Event.Send (some resp)])
      ∧ sent ([Event.Recv url]
              ++ (retryEvents (NewHttpClient ctx transport) req k w.calls 0 ++ [Event.Do req])
              ++ [Event.Send (some resp)]) = [some resp]
      ∧ terminalErrors ([Event.Recv url]
              ++ (retryEvents (NewHttpClient ctx transport) req k w.calls 0 ++ [Event.Do req])
              ++ [Event.Send (some resp)]) = 0
      ∧ warnings ([Event.Recv url]
              ++ (retryEvents (NewHttpClient ctx transport) req k w.calls 0 ++ [Event.Do req])
              ++ [Event.Send (some resp)]) = k) := by
  have hcnt := chain_counts (NewHttpClient ctx transport) req k w.calls hf
  obtain ⟨a1, a2, a3⟩ := requestWithRetry_then_success (NewHttpClient ctx transport) req w k resp
    hk hf hr hs
  obtain ⟨b1, b2, b3⟩ := requestWithRetry_then_success (NewHttpClient ctx transport) req
    (w.emit (Event.Recv url)) k resp hk hf hr hs
  refine ⟨⟨a1, a2, a3, ?_, ?_⟩, ?_, ?_, ?_, ?_, ?_⟩
  · simpa [attempts] using (hcnt [] []).1
  · simpa [warnings] using (hcnt [] []).2.1
  · rw [requestWorker_cons, handleURL_sent ctx parse _ url _ req _ hb b1]
  · rw [handleURL_sent ctx parse _ url _ req _ hb b1]
    simp only [World.emit] at b3 ⊢
    rw [b3]
    simp
  · simpa [sent] using (hcnt [Event.Send (some resp)] [Event.Recv url]).2.2.2
  · simpa [terminalErrors] using (hcnt [Event.Send (some resp)] [Event.Recv url]).2.2.1
  · simpa [warnings] using (hcnt [Event.Send (some resp)] [Event.Recv url]).2.1

/-- Instance of C4: `MaxRetries = 2` and the outcomes 503, 503, 200 give two
warnings and one delivered response. -/
theorem retry_then_success_delivered_witness :
    createRequest urlParse "http://a/" (exampleContext 2).RequestMethod
        (exampleContext 2).RequestHeaders = .ok exampleRequest
      ∧ ((2 : Nat) : Int) ≤ (exampleContext 2).Retries
      ∧ (∀ i : Nat, i < 2 → (transportBusyTwice (emptyWorld.calls + i) exampleRequest).failed = true)
      ∧ transportBusyTwice (emptyWorld.calls + 2) exampleRequest = ⟨some ⟨200, "ok"⟩, none⟩
      ∧ (200 : Int) < 500
      ∧ (requestWorker (exampleContext 2) transportBusyTwice urlParse ["http://a/"] emptyWorld).1
          = .ok ()
      ∧ warnings
          (requestWorker (exampleContext 2) transportBusyTwice urlParse ["http://a/"] emptyWorld).2.trace
          = 2
      ∧ sent
          (requestWorker (exampleContext 2) transportBusyTwice urlParse ["http://a/"] emptyWorld).2.trace
          = [some ⟨200, "ok"⟩]
      ∧ terminalErrors
          (requestWorker (exampleContext 2) transportBusyTwice urlParse ["http://a/"] emptyWorld).2.trace
          = 0 :=
  have hf : ∀ i : Nat, i < 2 →
      (transportBusyTwice (emptyWorld.calls + i) exampleRequest).failed = true := by
    intro i hi
    interval_cases i <;> rfl
  have h := retry_then_success_delivered (exampleContext 2) transportBusyTwice urlParse "http://a/"
    [] emptyWorld exampleRequest 2 ⟨200, "ok"⟩ rfl (by decide) hf rfl (by decide)
  ⟨rfl, by decide, hf, rfl, by decide, by rw [h.2.1]; rfl,
    by rw [h.2.1]; exact (congrArg warnings h.2.2.1).trans h.2.2.2.2.2,
    by rw [h.2.1]; exact (congrArg sent h.2.2.1).trans h.2.2.2.1,
    by rw [h.2.1]; exact (congrArg terminalErrors h.2.2.1).trans h.2.2.2.2.1⟩

/-- C5: in every retry chain of `requestWithRetry` started at
`previouslyFailed = 0` the number of sleeps is the number of retries, one less
than the number of attempts, and the sleep after the `k`-th failure, `k`
counted from 1, is `time.Duration(k) * time.Second`, which is exactly `k`
seconds for every `k` up to 9223372036, the whole range of `time.Duration`
(about 292 years); so a chain with `n` retries sleeps 1, 2, ..., `n` seconds
in this order, whatever `MaxRetries` is. -/
theorem backoff_linear (c : HttpClient) (req : Request) (w : World) :
    attempts ((requestWithRetry c req 0 w).2.eventsSince w)
        = (sleeps ((requestWithRetry c req 0 w).2.eventsSince w)).length + 1
      ∧ sleeps ((requestWithRetry c req 0 w).2.eventsSince w)
        = (List.range (sleeps ((requestWithRetry c req 0 w).2.eventsSince w)).length).map
            (fun i : Nat => sleepDuration ((i : Int) + 1))
      ∧ (∀ k : Nat, 1 ≤ k →
          k ≤ (sleeps ((requestWithRetry c req 0 w).2.eventsSince w)).length →
          k ≤ 9223372036 →
          (sleeps ((requestWithRetry c req 0 w).2.eventsSince w))[k - 1]?
            = some ((k : Int) * Second))
      ∧ ((sleeps ((requestWithRetry c req 0 w).2.eventsSince w)).length ≤ 9223372036 →
          sleeps ((requestWithRetry c req 0 w).2.eventsSince w)
            = (List.range (sleeps ((requestWithRetry c req 0 w).2.eventsSince w)).length).map
                (fun i : Nat => ((i : Int) + 1) * Second)) := by
  obtain ⟨n, _, _, _, htr, _⟩ := requestWithRetry_run c req 0 w
  have hev := eventsSince_of_trace _ w _ htr
  have hs : sleeps ((requestWithRetry c req 0 w).2.eventsSince w)
      = (List.range n).map (fun i : Nat => sleepDuration ((i : Int) + 1)) := by
    rw [hev, sleeps_append, retryEvents_sleeps]
    simp only [sleeps, List.filterMap_cons, List.filterMap_nil, List.append_nil]
    apply List.map_congr_left
    intro i _
    congr 1
    ring
  have hlen : (sleeps ((requestWithRetry c req 0 w).2.eventsSince w)).length = n := by
    rw [hs, List.length_map, List.length_range]
  refine ⟨?_, ?_, ?_, ?_⟩
  · rw [hlen, hev, attempts_append, retryEvents_attempts]
    simp [attempts]
  · rw [hlen]
    exact hs
  · intro k h1 hk hrange
    rw [hlen] at hk
    rw [hs, List.getElem?_map, List.getElem?_range (by omega)]
    simp only [Option.map_some']
    rw [sleepDuration_seconds _ (by omega) (by omega)]
    congr 2
    omega
  · intro hrange
    rw [hlen] at hrange ⊢
    rw [hs]
    apply List.map_congr_left
    intro i hi
    rw [List.mem_range] at hi
    exact sleepDuration_seconds _ (by omega) (by omega)

/-- Instance of C5: the outcomes 503, 503, 200 give the sleeps of 1 second and
then 2 seconds, with `MaxRetries = 2` and also with `MaxRetries = 9223372037`. -/
theorem backoff_linear_witness :
    ((1 : Nat) ≤ 2
        ∧ 2 ≤ (sleeps ((requestWithRetry ⟨2, transportBusyTwice⟩ exampleRequest 0
            emptyWorld).2.eventsSince emptyWorld)).length
        ∧ (2 : Nat) ≤ 9223372036)
      ∧ sleeps ((requestWithRetry ⟨2, transportBusyTwice⟩ exampleRequest 0
            emptyWorld).2.eventsSince emptyWorld) = [1000000000, 2000000000]
      ∧ (sleeps ((requestWithRetry ⟨2, transportBusyTwice⟩ exampleRequest 0
            emptyWorld).2.eventsSince emptyWorld))[2 - 1]? = some (((2 : Nat) : Int) * Second)
      ∧ sleeps ((requestWithRetry ⟨9223372037, transportBusyTwice⟩ exampleRequest 0
            emptyWorld).2.eventsSince emptyWorld) = [1000000000, 2000000000]
      ∧ (sleeps ((requestWithRetry ⟨9223372037, transportBusyTwice⟩ exampleRequest 0
            emptyWorld).2.eventsSince emptyWorld))[1 - 1]? = some (((1 : Nat) : Int) * Second) :=
  have hf : ∀ i : Nat, i < 2 →
      (transportBusyTwice (emptyWorld.calls + i) exampleRequest).failed = true := by
    intro i hi
    interval_cases i <;> rfl
  have e2 : sleeps ((requestWithRetry ⟨2, transportBusyTwice⟩ exampleRequest 0
      emptyWorld).2.eventsSince emptyWorld) = [1000000000, 2000000000] := by
    rw [eventsSince_of_trace _ emptyWorld _ (requestWithRetry_then_success
      ⟨2, transportBusyTwice⟩ exampleRequest emptyWorld 2 ⟨200, "ok"⟩ (by decide) hf rfl
      (by decide)).2.2]
    rfl
  have e3 : sleeps ((requestWithRetry ⟨9223372037, transportBusyTwice⟩ exampleRequest 0
      emptyWorld).2.eventsSince emptyWorld) = [1000000000, 2000000000] := by
    rw [eventsSince_of_trace _ emptyWorld _ (requestWithRetry_then_success
      ⟨9223372037, transportBusyTwice⟩ exampleRequest emptyWorld 2 ⟨200, "ok"⟩ (by decide) hf rfl
      (by decide)).2.2]
    rfl
  have l2 : 2 ≤ (sleeps ((requestWithRetry ⟨2, transportBusyTwice⟩ exampleRequest 0
      emptyWorld).2.eventsSince emptyWorld)).length := by
    rw [e2]
    decide
  have l3 : 1 ≤ (sleeps ((requestWithRetry ⟨9223372037, transportBusyTwice⟩ exampleRequest 0
      emptyWorld).2.eventsSince emptyWorld)).length := by
    rw [e3]
    decide
  ⟨⟨by decide, l2, by decide⟩, e2,
    (backoff_linear ⟨2, transportBusyTwice⟩ exampleRequest emptyWorld).2.2.1 2 (by decide) l2
      (by decide),
    e3,
    (backoff_linear ⟨9223372037, transportBusyTwice⟩ exampleRequest emptyWorld).2.2.1 1
      (by decide) l3 (by decide)⟩

/-- C6: when `http.NewRequest` builds a request for the URL and method,
`createRequest` returns a request whose header holds, under every name, the
values configured for that name in the order given, followed under
`connection` by `keep-alive`; so every configured value is carried, and
`keep-alive` comes after all caller-supplied values. -/
theorem createRequest_carries_headers (parse : String → Except Error String)
    (url method : String) (headers : List RequestHeader) (base : Request)
    (hb : NewRequest parse method url = .ok base) :
    ∃ req, createRequest parse url method headers = .ok req
      ∧ req.Method = base.Method ∧ req.URL = base.URL
      ∧ (∀ name, req.Header.Values name
          = configuredValues headers name
            ++ (if CanonicalMIMEHeaderKey name = "Connection" then ["keep-alive"] else []))
      ∧ (∀ h ∈ headers, h.Value ∈ req.Header.Values h.Key)
      ∧ req.Header.Values "connection" = configuredValues headers "connection" ++ ["keep-alive"] := by
  obtain ⟨req, h1, h2, h3, h4⟩ := createRequest_values parse url method headers base hb
  refine ⟨req, h1, h2, h3, h4, ?_, ?_⟩
  · intro h hh
    rw [h4 h.Key]
    apply List.mem_append_left
    unfold configuredValues
    exact List.mem_map.mpr ⟨h, List.mem_filter.mpr ⟨hh, by simp⟩, rfl⟩
  · rw [h4 "connection"]
    have hcanon : CanonicalMIMEHeaderKey "connection" = "Connection" := by decide
    simp [hcanon]

/-- Instance of C6: for the configured header `X-A: 1` the built request carries
`X-A: 1` and `connection: keep-alive`. -/
theorem createRequest_carries_headers_witness :
    NewRequest urlParse "GET" "http://a/" = .ok ⟨"GET", "http://a/", ⟨[]⟩⟩
      ∧ ∃ req, createRequest urlParse "http://a/" "GET" [⟨"X-A", "1"⟩] = .ok req
          ∧ req.Header.Values "X-A" = ["1"]
          ∧ req.Header.Values "connection" = ["keep-alive"] :=
  have h := createRequest_carries_headers urlParse "http://a/" "GET" [⟨"X-A", "1"⟩]
    ⟨"GET", "http://a/", ⟨[]⟩⟩ rfl
  ⟨rfl, h.choose, h.choose_spec.1,
    (h.choose_spec.2.2.2.1 "X-A").trans (by decide),
    h.choose_spec.2.2.2.2.2.trans (by decide)⟩

/-- C7 (as amended): when the caller supplies a header named connection, in
any letter case, the `keep-alive` value that `createRequest` adds last does
not override it: the connection header of the built request holds the
caller's values in the order given followed by `keep-alive`, and looking it
up with `Header.Get` yields the value of the caller's first such header. -/
theorem caller_connection_first (parse : String → Except Error String)
    (url method : String) (before after : List RequestHeader) (key v : String) (base : Request)
    (hb : NewRequest parse method url = .ok base)
    (hkey : CanonicalMIMEHeaderKey key = CanonicalMIMEHeaderKey "connection")
    (hfirst : ∀ h ∈ before,
      CanonicalMIMEHeaderKey h.Key ≠ CanonicalMIMEHeaderKey "connection") :
    ∃ req, createRequest parse url method (before ++ ⟨key, v⟩ :: after) = .ok req
      ∧ req.Header.Get "connection" = v
      ∧ req.Header.Values "connection"
          = (v :: configuredValues after "connection") ++ ["keep-alive"] := by
  obtain ⟨req, h1, _, _, h4⟩ :=
    createRequest_values parse url method (before ++ ⟨key, v⟩ :: after) base hb
  have hcanon : CanonicalMIMEHeaderKey "connection" = "Connection" := by decide
  have hbefore : configuredValues before "connection" = [] := by
    unfold configuredValues
    rw [List.map_eq_nil_iff, List.filter_eq_nil_iff]
    intro h hh
    simpa using hfirst h hh
  have hvals : req.Header.Values "connection"
      = (v :: configuredValues after "connection") ++ ["keep-alive"] := by
    rw [h4 "connection"]
    have hsplit : configuredValues (before ++ ⟨key, v⟩ :: after) "connection"
        = configuredValues before "connection" ++ (v :: configuredValues after "connection") := by
      simp [configuredValues, List.filter_cons, hkey]
    rw [hsplit, hbefore]
    simp [hcanon]
  refine ⟨req, h1, ?_, hvals⟩
  unfold Header.Values at hvals
  unfold Header.Get
  rw [hvals]
  rfl

/-- Instance of C7 as amended, for the caller header `CONNECTION: close`. -/
theorem caller_connection_first_witness :
    NewRequest urlParse "GET" "http://a/" = .ok ⟨"GET", "http://a/", ⟨[]⟩⟩
      ∧ CanonicalMIMEHeaderKey "CONNECTION" = CanonicalMIMEHeaderKey "connection"
      ∧ (∀ h ∈ [(⟨"X-A", "1"⟩ : RequestHeader)],
          CanonicalMIMEHeaderKey h.Key ≠ CanonicalMIMEHeaderKey "connection")
      ∧ ∃ req, createRequest urlParse "http://a/" "GET"
            ([⟨"X-A", "1"⟩] ++ ⟨"CONNECTION", "close"⟩ :: []) = .ok req
          ∧ req.Header.Get "connection" = "close"
          ∧ req.Header.Values "connection" = ["close", "keep-alive"] :=
  have hfirst : ∀ h ∈ [(⟨"X-A", "1"⟩ : RequestHeader)],
      CanonicalMIMEHeaderKey h.Key ≠ CanonicalMIMEHeaderKey "connection" := by
    intro h hh
    rw [List.mem_singleton] at hh
    subst hh
    decide
  ⟨rfl, by decide, hfirst,
    caller_connection_first urlParse "http://a/" "GET" [⟨"X-A", "1"⟩] [] "CONNECTION" "close"
      ⟨"GET", "http://a/", ⟨[]⟩⟩ rfl (by decide) hfirst⟩

/-- C7 fails: with the caller's header `Connection: close`, looking up the
connection header of the built request yields `close`, not `keep-alive`. -/
theorem caller_connection_not_overridden :
    ∃ req, createRequest urlParse "http://a/" "GET" [⟨"Connection", "close"⟩] = .ok req
      ∧ req.Header.Get "connection" = "close"
      ∧ req.Header.Get "connection" ≠ "keep-alive"
      ∧ req.Header.Values "connection" = ["close", "keep-alive"] :=
  ⟨⟨"GET", "http://a/", ⟨[("Connection", ["close", "keep-alive"])]⟩⟩, by rfl, by decide, by decide,
    by decide⟩

/-- C8 (as amended): a build error is not confined to its URL, because
`createRequest` panics.  When `http.NewRequest` fails for a URL of the source,
`requestWorker` handles the URLs before it as usual, receives the URL, makes
no HTTP attempt for it, sends nothing to the sink and calls no logger for it,
and stops with the panic: no later URL is received or processed. -/
theorem build_error_stops_worker (ctx : Context) (transport : Nat → Request → DoResult)
    (parse : String → Except Error String) (before after : List String) (url : String)
    (w : World) (err : Error) (hbad : NewRequest parse ctx.RequestMethod url = .error err) :
    requestWorker ctx transport parse (before ++ url :: after) w
      = match requestWorker ctx transport parse before w with
        | (.error p, w1) => (.error p, w1)
        | (.ok (), w1) => (.error (Panic.buildError err), w1.emit (Event.Recv url)) :=
  requestWorker_build_error ctx transport parse before after url w err hbad

/-- Instance of C8 as amended: a URL with a control byte stops the worker
before `http://c/`. -/
theorem build_error_stops_worker_witness :
    NewRequest urlParse (exampleContext 0).RequestMethod "http://b\x7f/"
        = .error "net/url: invalid control character in URL"
      ∧ requestWorker (exampleContext 0) transportNotFound urlParse
          ([] ++ "http://b\x7f/" :: ["http://c/"]) emptyWorld
        = (.error (Panic.buildError "net/url: invalid control character in URL"),
            ⟨0, [Event.Recv "http://b\x7f/"], []⟩) :=
  ⟨rfl, build_error_stops_worker (exampleContext 0) transportNotFound urlParse []
    ["http://c/"] "http://b\x7f/" emptyWorld "net/url: invalid control character in URL" rfl⟩

/-- C8 fails: for the source `http://a/`, a URL with a control byte,
`http://c/`, the worker handles the first URL, panics on the second without
reporting it through the logger, and never receives the third. -/
theorem build_error_skips_remaining_urls :
    (requestWorker (exampleContext 0) transportNotFound urlParse
        ["http://a/", "http://b\x7f/", "http://c/"] emptyWorld).1
        = .error (Panic.buildError "net/url: invalid control character in URL")
      ∧ (requestWorker (exampleContext 0) transportNotFound urlParse
        ["http://a/", "http://b\x7f/", "http://c/"] emptyWorld).2.trace
        = [Event.Recv "http://a/", Event.Do exampleRequest,
            Event.Send (some ⟨404, "not found"⟩), Event.Recv "http://b\x7f/"]
      ∧ received (requestWorker (exampleContext 0) transportNotFound urlParse
        ["http://a/", "http://b\x7f/", "http://c/"] emptyWorld).2.trace
        = ["http://a/", "http://b\x7f/"]
      ∧ terminalErrors (requestWorker (exampleContext 0) transportNotFound urlParse
        ["http://a/", "http://b\x7f/", "http://c/"] emptyWorld).2.trace = 0 := by
  have hpre : requestWorker (exampleContext 0) transportNotFound urlParse ["http://a/"] emptyWorld
      = (.ok (), ⟨1, [Event.Recv "http://a/", Event.Do exampleRequest,
          Event.Send (some ⟨404, "not found"⟩)], []⟩) := by
    rw [requestWorker_cons, handleURL_no_retries (exampleContext 0) urlParse transportNotFound
      "http://a/" _ exampleRequest rfl (by decide)]
    rfl
  have h := requestWorker_build_error (exampleContext 0) transportNotFound urlParse ["http://a/"]
    ["http://c/"] "http://b\x7f/" emptyWorld "net/url: invalid control character in URL" rfl
  rw [hpre] at h
  have h2 : requestWorker (exampleContext 0) transportNotFound urlParse
      ["http://a/", "http://b\x7f/", "http://c/"] emptyWorld
      = (.error (Panic.buildError "net/url: invalid control character in URL"),
          ⟨1, [Event.Recv "http://a/", Event.Do exampleRequest,
            Event.Send (some ⟨404, "not found"⟩), Event.Recv "http://b\x7f/"], []⟩) := h
  rw [h2]
  exact ⟨rfl, rfl, rfl, rfl⟩

/-- C9: a worker draining a source of URLs that all build, over a client
that keeps the contract of `Do`, ends normally.  The URLs it receives are those
of the source, each once and in source order.  For each of them it attempts
the request built for that URL, retrying the failed attempts within the budget,
and then makes exactly one final effect, decided by the result of the last
attempt: the response sent to the sink when the error is nil, a terminal error
reported for that URL otherwise; a URL whose retries are used up is followed
by the remaining URLs like any other.  The number of responses sent plus the
number of terminal errors is the number of URLs. -/
theorem worker_handles_every_url (ctx : Context) (transport : Nat → Request → DoResult)
    (parse : String → Except Error String) (requests : List String) (w : World)
    (hb : ∀ url ∈ requests, ∃ base, NewRequest parse ctx.RequestMethod url = .ok base)
    (hc : ClientContract transport) :
    (requestWorker ctx transport parse requests w).1 = .ok ()
      ∧ ∃ delta : List Event,
          (requestWorker ctx transport parse requests w).2.trace = w.trace ++ delta
            ∧ Handles ctx parse (NewHttpClient ctx transport) requests w.calls delta
            ∧ received delta = requests
            ∧ (sent delta).length + terminalErrors delta = requests.length := by
  induction requests generalizing w with
  | nil => exact ⟨rfl, [], by simp [requestWorker, workerLoop], rfl, rfl, rfl⟩
  | cons url rest ih =>
    obtain ⟨base, hbase⟩ := hb url (List.mem_cons_self url rest)
    obtain ⟨req, k, g1, g2, g3, g4, h1, h2, h3⟩ := handleURL_outcome ctx parse
      (NewHttpClient ctx transport) url (w.emit (Event.Recv url)) base hbase hc
    have hcalls : (w.emit (Event.Recv url)).calls = w.calls := rfl
    rw [hcalls] at g3 g4 h2 h3
    rw [requestWorker_cons]
    rcases hq : handleURL ctx parse (NewHttpClient ctx transport) url (w.emit (Event.Recv url))
      with ⟨r, w1⟩
    rw [hq] at h1 h2 h3
    simp only at h1 h2 h3
    subst h1
    obtain ⟨j1, delta, j2, j3, j4, j5⟩ :=
      ih w1 (fun u hu => hb u (List.mem_cons_of_mem url hu))
    rw [h3] at j3
    obtain ⟨c1, c2, c3⟩ := retryEvents_quiet (NewHttpClient ctx transport) req k w.calls 0
    obtain ⟨f1, f2⟩ := finalEvent_counts url (transport (w.calls + k) req)
    have hclient : (NewHttpClient ctx transport).Client = transport := rfl
    rw [hclient] at h2 g3 g4
    have e1 : Event.Recv url :: (retryEvents (NewHttpClient ctx transport) req k w.calls 0
          ++ [Event.Do req] ++ finalEvent url (transport (w.calls + k) req) :: delta)
        = [Event.Recv url] ++ (retryEvents (NewHttpClient ctx transport) req k w.calls 0
          ++ ([Event.Do req] ++ ([finalEvent url (transport (w.calls + k) req)] ++ delta))) := by
      simp
    refine ⟨j1, Event.Recv url :: (retryEvents (NewHttpClient ctx transport) req k w.calls 0
      ++ [Event.Do req] ++ finalEvent url (transport (w.calls + k) req) :: delta), ?_,
      ⟨req, k, delta, g1, g2, g3, g4, rfl, j3⟩, ?_, ?_⟩
    · show (requestWorker ctx transport parse rest w1).2.trace = _
      rw [j2, h2]
      simp [World.emit]
    · have r0 : received [Event.Recv url] = [url] := rfl
      have r1 : received [Event.Do req] = [] := rfl
      rw [e1, received_append, received_append, received_append, received_append, c3, f2, j4,
        r0, r1]
      rfl
    · have r1 : sent [Event.Recv url] = [] := rfl
      have r2 : terminalErrors [Event.Recv url] = 0 := rfl
      have r3 : sent [Event.Do req] = [] := rfl
      have r4 : terminalErrors [Event.Do req] = 0 := rfl
      rw [e1]
      simp only [sent_append, terminalErrors_append, c1, c2, r1, r2, r3, r4, List.length_append,
        List.nil_append, List.length_cons, List.length_nil]
      omega

/-- Instance of C9: with one retry allowed and the answers 503, 503, 200, the
first URL uses up its budget and its last 503 response is sent, and the second
URL is then handled and its 200 response sent. -/
theorem worker_handles_every_url_witness :
    (∀ url ∈ ["http://a/", "http://b/"],
        ∃ base, NewRequest urlParse (exampleContext 1).RequestMethod url = .ok base)
      ∧ ClientContract transportBusyTwice
      ∧ (requestWorker (exampleContext 1) transportBusyTwice urlParse ["http://a/", "http://b/"]
          emptyWorld).2.trace
          = [Event.Recv "http://a/", Event.Do exampleRequest,
              Event.LogResponse 503 "http://a/ (1)", Event.Sleep 1000000000,
              Event.Do exampleRequest, Event.Send (some ⟨503, "busy"⟩),
              Event.Recv "http://b/", Event.Do { exampleRequest with URL := "http://b/" },
              Event.Send (some ⟨200, "ok"⟩)]
      ∧ (requestWorker (exampleContext 1) transportBusyTwice urlParse ["http://a/", "http://b/"]
          emptyWorld).1 = .ok ()
      ∧ ∃ delta : List Event,
          (requestWorker (exampleContext 1) transportBusyTwice urlParse ["http://a/", "http://b/"]
              emptyWorld).2.trace = emptyWorld.trace ++ delta
            ∧ Handles (exampleContext 1) urlParse
                (NewHttpClient (exampleContext 1) transportBusyTwice)
                ["http://a/", "http://b/"] emptyWorld.calls delta
            ∧ received delta = ["http://a/", "http://b/"]
            ∧ (sent delta).length + terminalErrors delta = 2 :=
  have hb : ∀ url ∈ ["http://a/", "http://b/"],
      ∃ base, NewRequest urlParse (exampleContext 1).RequestMethod url = .ok base := by
    intro url hu
    simp only [List.mem_cons, List.mem_singleton, List.not_mem_nil, or_false] at hu
    rcases hu with rfl | rfl
    · exact ⟨_, rfl⟩
    · exact ⟨_, rfl⟩
  have hc : ClientContract transportBusyTwice := by
    intro n request _
    unfold transportBusyTwice
    split <;> simp
  have htrace : (requestWorker (exampleContext 1) transportBusyTwice urlParse
      ["http://a/", "http://b/"] emptyWorld).2.trace
      = [Event.Recv "http://a/", Event.Do exampleRequest,
          Event.LogResponse 503 "http://a/ (1)", Event.Sleep 1000000000,
          Event.Do exampleRequest, Event.Send (some ⟨503, "busy"⟩),
          Event.Recv "http://b/", Event.Do { exampleRequest with URL := "http://b/" },
          Event.Send (some ⟨200, "ok"⟩)] := by
    have hf : ∀ i : Nat, i < (exampleContext 1).Retries.toNat →
        (transportBusyTwice ((emptyWorld.emit (Event.Recv "http://a/")).calls + i)
          exampleRequest).failed = true := by
      intro i hi
      have hi2 : i < 1 := hi
      interval_cases i
      rfl
    rw [requestWorker_cons, handleURL_exhausted (exampleContext 1) urlParse transportBusyTwice
      "http://a/" _ exampleRequest rfl (by decide) hf]
    show (requestWorker (exampleContext 1) transportBusyTwice urlParse ["http://b/"]
      ⟨2, [Event.Recv "http://a/", Event.Do exampleRequest,
          Event.LogResponse 503 "http://a/ (1)", Event.Sleep 1000000000,
          Event.Do exampleRequest, Event.Send (some ⟨503, "busy"⟩)], [0, 0]⟩).2.trace = _
    rw [requestWorker_cons, handleURL_sent (exampleContext 1) urlParse _ "http://b/" _
      { exampleRequest with URL := "http://b/" } (some ⟨200, "ok"⟩) rfl
      (by rw [requestWithRetry_success _ _ _ _ ⟨200, "ok"⟩ rfl (by decide)]),
      requestWithRetry_success _ _ _ _ ⟨200, "ok"⟩ rfl (by decide)]
    rfl
  ⟨hb, hc, htrace, worker_handles_every_url (exampleContext 1) transportBusyTwice urlParse
    ["http://a/", "http://b/"] emptyWorld hb hc⟩

/-- C10: over a client that returns a non-nil response whenever it returns a
nil error, `requestWithRetry` does not panic, and every read of
`response.StatusCode` it makes is a read of the response of a call of `Do`
whose error is nil, for every `MaxRetries` and every `previouslyFailed`. -/
theorem status_read_only_without_error (c : HttpClient) (req : Request) (pf : Int) (w : World)
    (hc : ClientContract c.Client) :
    (∃ r, (requestWithRetry c req pf w).1 = .ok r)
      ∧ ∃ extra : List Nat,
          (requestWithRetry c req pf w).2.statusReads = w.statusReads ++ extra
            ∧ ∀ m ∈ extra, (c.Client m req).err = none := by
  obtain ⟨k, _, _, _, _, _, hreads, hres⟩ := requestWithRetry_run c req pf w
  refine ⟨?_, hreads⟩
  rcases hres with h | ⟨_, h⟩
  · exact ⟨_, h⟩
  · exact absurd (by rw [h]) (hc (w.calls + k) req (by rw [h]))

/-- Instance of C10: with two retries allowed, a first call refused with an
error and a non-nil response, a second call answered with 503 and a third call
timing out, the run ends normally and the status is read twice, both times
from the response of the second call, the only one whose error is nil. -/
theorem status_read_only_without_error_witness :
    ClientContract (⟨2, transportFlaky⟩ : HttpClient).Client
      ∧ (requestWithRetry ⟨2, transportFlaky⟩ exampleRequest 0 emptyWorld).1
          = .ok ⟨none, some "timeout"⟩
      ∧ (requestWithRetry ⟨2, transportFlaky⟩ exampleRequest 0 emptyWorld).2.statusReads = [1, 1]
      ∧ attempts (requestWithRetry ⟨2, transportFlaky⟩ exampleRequest 0 emptyWorld).2.trace = 3
      ∧ (transportFlaky 0 exampleRequest).err = some "redirect refused"
      ∧ (transportFlaky 1 exampleRequest).err = none
      ∧ (transportFlaky 2 exampleRequest).err = some "timeout"
      ∧ (∃ r, (requestWithRetry ⟨2, transportFlaky⟩ exampleRequest 0 emptyWorld).1 = .ok r)
      ∧ ∃ extra : List Nat,
          (requestWithRetry ⟨2, transportFlaky⟩ exampleRequest 0 emptyWorld).2.statusReads
              = emptyWorld.statusReads ++ extra
            ∧ ∀ m ∈ extra, (transportFlaky m exampleRequest).err = none :=
  have hc : ClientContract (⟨2, transportFlaky⟩ : HttpClient).Client := by
    intro n request
    show (transportFlaky n request).err = none → (transportFlaky n request).response ≠ none
    unfold transportFlaky
    split
    · simp
    · split <;> simp
  have hf : ∀ i : Nat, i < (⟨2, transportFlaky⟩ : HttpClient).MaxRetries.toNat →
      ((⟨2, transportFlaky⟩ : HttpClient).Client (emptyWorld.calls + i) exampleRequest).failed
        = true := by
    intro i hi
    have hi2 : i < 2 := hi
    interval_cases i <;> rfl
  have h := requestWithRetry_exhausted ⟨2, transportFlaky⟩ exampleRequest emptyWorld
    (by decide) hf
  have hrun := status_read_only_without_error ⟨2, transportFlaky⟩ exampleRequest 0 emptyWorld hc
  ⟨hc, by rw [h]; rfl, by rw [h]; rfl, by rw [h]; rfl, rfl, rfl, rfl, hrun.1, hrun.2⟩

end Ganda
